import Mathlib

/-!
Verification of the tabular bulk-import engine of the it-asset-manager
repository (app/services/import_service.py and the imports router), as a
shallow embedding in Lean.  Cell values are modelled as strings, database
ids as naturals or strings, and the external parsing libraries (pandas
date parsing, float conversion, uuid parsing, database queries) as
abstract functions supplied in an environment record.
-/

namespace AssetsAI

/-- Python str.lower restricted to ASCII characters. -/
def pyLower (s : String) : String := String.mk (s.data.map Char.toLower)

/-- Whitespace characters stripped by Python str.strip with no argument. -/
def isWs (c : Char) : Bool := c = ' ' ∨ c = '\t' ∨ c = '\n' ∨ c = '\r' ∨ c = '\x0b' ∨ c = '\x0c'

/-- Python str.strip with no argument: drop leading and trailing whitespace. -/
def pyStrip (s : String) : String :=
  String.mk (((s.data.dropWhile isWs).reverse.dropWhile isWs).reverse)

/-- Test whether a character is in the class a-z0-9 used by the header regex. -/
def isLowerAlnum (c : Char) : Bool := (('a' ≤ c ∧ c ≤ 'z') ∨ ('0' ≤ c ∧ c ≤ '9'))

/-- Maximal runs of characters satisfying isLowerAlnum, in order.  The first
argument accumulates the current run in reverse. -/
def alnumRunsAux : List Char → List Char → List (List Char)
  | acc, [] => if acc = [] then [] else [acc.reverse]
  | acc, c :: cs =>
    if isLowerAlnum c then alnumRunsAux (c :: acc) cs
    else (if acc = [] then [] else [acc.reverse]) ++ alnumRunsAux [] cs

/-- Join character lists with a separator character between them. -/
def joinWith (sep : Char) : List (List Char) → List Char
  | [] => []
  | [p] => p
  | p :: ps => p ++ sep :: joinWith sep ps

/-- The helper _normalize_header of execute_import and execute_user_import:
lowercase, strip, collapse every run of characters outside a-z0-9 to a single
underscore, collapse repeated underscores, and strip underscores at the ends.
The net effect is: the lowercase alphanumeric runs joined by single
underscores. -/
def normalizeHeader (h : String) : String :=
  String.mk (joinWith '_' (alnumRunsAux [] (pyLower h).data))

/-- Header key normalization used by analyze_file and analyze_user_file:
h.lower().strip().replace(space, underscore).  Unlike normalizeHeader it does
not collapse runs and only rewrites spaces. -/
def analyzeKey (h : String) : String :=
  String.mk ((pyStrip (pyLower h)).data.map (fun c => if c = ' ' then '_' else c))

/-- Lookup in an association list with Python dict semantics: when the list
was built by repeated insertion, the most recent binding for a key wins. -/
def dictGet {α : Type} (m : List (String × α)) (k : String) : Option α :=
  (m.reverse.find? (fun p => p.1 = k)).map (·.2)

/-- Python truthiness of an optional string: None and the empty string are
falsy, every other string is truthy. -/
def pyTruthy : Option String → Bool
  | none => false
  | some s => s ≠ ""

/-- The per-cell expression val_str: str(v) if v is not None and str(v).strip()
is nonempty, else None.  The original string is kept, not the stripped one. -/
def valStr : Option String → Option String
  | none => none
  | some s => if pyStrip s = "" then none else some s

/-- Normalize the keys of a caller-supplied field mapping, as execute_import
does before its row loop.  Values are kept verbatim, including the empty
string that marks an ignored column. -/
def normalizeMapping (m : List (String × String)) : List (String × String) :=
  m.map (fun p => (normalizeHeader p.1, p.2))

/-- The fallback chain of execute_import assigning a default target to a
normalized header that has no explicit mapping entry.  The first branch of the
source leaves the target unset for assetid, asset_id and legacy_id whatever
the value of its side condition on mapping values, because its body is pass
and no later branch lists those keys; it is therefore embedded as an
unconditional miss. -/
def fallbackTarget (k : String) : Option String :=
  if k ∈ ["assetid", "asset_id", "legacy_id"] then none
  else if k ∈ ["serial", "serial_number", "servicetag", "service_tag", "s_n", "sn"] then some "serial_number"
  else if k ∈ ["status", "state", "current_state", "current_status"] then some "status"
  else if k ∈ ["location", "site", "room"] then some "location"
  else if k ∈ ["category", "type", "model_type", "asset_type"] then some "asset_type_id"
  else if k ∈ ["cost", "purchase_price", "price", "bought_price"] then some "purchase_price"
  else if k ∈ ["bought_date", "purchase_date", "date_bought"] then some "purchase_date"
  else if k ∈ ["supplier", "vendor"] then some "vendor"
  else if k ∈ ["po_number", "order_number", "po"] then some "order_number"
  else if k ∈ ["warranty_end", "warranty_date"] then some "warranty_end"
  else if k ∈ ["assigned_user", "assigned_to", "owner", "user"] then some "assigned_user_id"
  else if k ∈ ["tags", "tag"] then some "tags"
  else none

/-- The literal status_synonyms table of execute_import. -/
def statusSynonyms : List (String × String) :=
  [("deployed", "active"), ("in storage", "in_stock"), ("in-stock", "in_stock"),
   ("under repair", "fix"), ("broken", "broken"), ("damaged", "broken"),
   ("retired", "retired"), ("lost", "lost"), ("stolen", "lost"),
   ("awaiting disposal", "disposal"), ("disposal", "disposal"),
   ("reserved", "reserved"), ("ordered", "ordered")]

/-- Status resolution of execute_import for target "status": lowercase the
value, look it up directly in the status map; on a miss consult the synonym
table and look up the synonym target; on a further miss fall back to the
status named active when present, else leave the status unset. -/
def resolveStatusId (statusMap : List (String × Nat)) (vs : String) : Option Nat :=
  let sVal := pyLower vs
  match dictGet statusMap sVal with
  | some i => some i
  | none =>
    match dictGet statusSynonyms sVal with
    | some canon =>
      match dictGet statusMap canon with
      | some i => some i
      | none => dictGet statusMap "active"
    | none => dictGet statusMap "active"

/-- In-memory execution state threaded through the asset row loop: the
lowercased-name to id map of asset types, the names of types created on the
fly in db.add order, and a counter standing for the id generator. -/
structure ExecState where
  typeMap : List (String × Nat)
  createdTypes : List String
  nextTypeId : Nat
deriving Repr, DecidableEq

/-- Asset type resolution of execute_import for target "asset_type_id":
lowercase the value and look it up in the in-memory type map; on a miss create
a new AssetType carrying the original value as name, flush to obtain its id,
and record it in the map immediately so later rows reuse it. -/
def resolveTypeId (st : ExecState) (vs : String) : Nat × ExecState :=
  let tVal := pyLower vs
  match dictGet st.typeMap tVal with
  | some i => (i, st)
  | none =>
    let i := st.nextTypeId
    (i, { typeMap := st.typeMap ++ [(tVal, i)],
          createdTypes := st.createdTypes ++ [vs],
          nextTypeId := i + 1 })

/-- Abstract environment for one asset-import execution: the status lookup
table read once before the loop, the initial asset-type table, and the
external collaborators used inside the loop.  parseDate models
pandas.to_datetime(...).date(), parseFloat models float() on the cleaned
string (both None on a parse failure, matching the try blocks that swallow
parse errors), isUUID models uuid.UUID acceptance, and userIdByEmail models
the exact-match user query by email. -/
structure Env where
  statusMap : List (String × Nat)
  typeMap : List (String × Nat)
  nextTypeId : Nat
  parseDate : String → Option String
  parseFloat : String → Option String
  isUUID : String → Bool
  userIdByEmail : String → Option String

/-- The asset_data dictionary accumulated for one row before Asset(**asset_data). -/
structure AssetData where
  name : String
  assetSetId : Option String := none
  serialNumber : Option String := none
  location : Option String := none
  vendor : Option String := none
  orderNumber : Option String := none
  warrantyEnd : Option String := none
  purchaseDate : Option String := none
  purchasePrice : Option String := none
  assignedUserId : Option String := none
  tags : Option (List String) := none
  statusId : Option Nat := none
  assetTypeId : Option Nat := none
  extra : List (String × String) := []
deriving Repr, DecidableEq

/-- Python-style split of a string on a single separator character, keeping
empty pieces. -/
def pySplitAux (sep : Char) : List Char → List Char → List (List Char)
  | acc, [] => [acc.reverse]
  | acc, c :: cs =>
    if c = sep then acc.reverse :: pySplitAux sep [] cs
    else pySplitAux sep (c :: acc) cs

def pySplit (s : String) (sep : Char) : List String :=
  (pySplitAux sep [] s.data).map String.mk

/-- Tag-list construction of execute_import for target "tags": split on comma
when one is present, else on semicolon when one is present, else take the
whole stripped value; strip each piece and drop empty pieces. -/
def splitTags (vs : String) : List String :=
  let tagsList :=
    if vs.data.any (· = ',') then (pySplit vs ',').map pyStrip
    else if vs.data.any (· = ';') then (pySplit vs ';').map pyStrip
    else [pyStrip vs]
  tagsList.filter (· ≠ "")

/-- Remove every occurrence of a character, modelling str.replace with an
empty replacement for a one-character pattern. -/
def removeChar (s : String) (c : Char) : String :=
  String.mk (s.data.filter (· ≠ c))

/-- Dispatch of one resolved target on one cell, updating the asset_data under
construction and the execution state.  k is the original header, vs the
non-empty cell string, raw the original cell value stored into the extra bag.
A target of some "name" is skipped because the name was fixed before the
column loop; an unknown or absent target routes the raw value into the extra
bag keyed by the original header. -/
def dispatchTarget (env : Env) (target : Option String) (k vs : String)
    (acc : AssetData × ExecState) : AssetData × ExecState :=
  let (data, st) := acc
  match target with
  | some "name" => (data, st)
  | some "serial_number" => ({ data with serialNumber := some vs }, st)
  | some "location" => ({ data with location := some vs }, st)
  | some "warranty_end" =>
    match env.parseDate vs with
    | some d => ({ data with warrantyEnd := some d }, st)
    | none => (data, st)
  | some "assigned_user_id" =>
    if env.isUUID vs then ({ data with assignedUserId := some vs }, st)
    else
      match env.userIdByEmail vs with
      | some uid => ({ data with assignedUserId := some uid }, st)
      | none => (data, st)
  | some "tags" => ({ data with tags := some (splitTags vs) }, st)
  | some "purchase_price" =>
    match env.parseFloat (removeChar (removeChar vs '$') ',') with
    | some f => ({ data with purchasePrice := some f }, st)
    | none => (data, st)
  | some "purchase_date" =>
    match env.parseDate vs with
    | some d => ({ data with purchaseDate := some d }, st)
    | none => (data, st)
  | some "vendor" => ({ data with vendor := some vs }, st)
  | some "order_number" => ({ data with orderNumber := some vs }, st)
  | some "status" =>
    match resolveStatusId env.statusMap vs with
    | some sid => ({ data with statusId := some sid }, st)
    | none => (data, st)
  | some "asset_type_id" =>
    let (tid, st1) := resolveTypeId st vs
    ({ data with assetTypeId := some tid }, st1)
  | _ => ({ data with extra := data.extra ++ [(k, vs)] }, st)

/-- One iteration of the per-column loop of execute_import.  Empty or missing
cells are skipped; an explicit mapping entry equal to the empty string ignores
the column; otherwise the explicit entry, or failing that the synonym
fallback, chooses the target. -/
def applyColumn (env : Env) (m : List (String × String)) (col : String × Option String)
    (acc : AssetData × ExecState) : AssetData × ExecState :=
  let (k, v) := col
  let kNorm := normalizeHeader k
  match valStr v with
  | none => acc
  | some vs =>
    let explicit := dictGet m kNorm
    if explicit = some "" then acc
    else
      let target :=
        match explicit with
        | some t => some t
        | none => fallbackTarget kNorm
      dispatchTarget env target k vs acc

/-- Name resolution of execute_import before the column loop: first the value
of the first column explicitly mapped to name, then the first column whose
normalized header is one of the name synonyms, then the AssetID cell, and
finally the synthetic placeholder carrying the row index.  Falsy values
(missing or empty) at each stage fall through to the next. -/
def resolveName (m : List (String × String)) (i : Nat)
    (record : List (String × Option String)) : String :=
  let n1 : Option String :=
    match record.find? (fun p => dictGet m (normalizeHeader p.1) = some "name") with
    | some p => p.2
    | none => none
  if pyTruthy n1 then n1.getD "" else
  let n2 : Option String :=
    match record.find? (fun p => normalizeHeader p.1 ∈ ["name", "item_name", "asset_name", "model"]) with
    | some p => p.2
    | none => none
  if pyTruthy n2 then n2.getD "" else
  let n3 : Option String := (record.find? (fun p => p.1 = "AssetID")).bind (·.2)
  if pyTruthy n3 then n3.getD "" else "Imported Asset " ++ toString i

/-- Transformation of one asset row: fix the name, seed asset_data with the
grouping set id and an empty extra bag, then fold the column loop over the
record in order.  The field mapping m is assumed already key-normalized. -/
def processAssetRow (env : Env) (m : List (String × String)) (assetSetId : Option String)
    (i : Nat) (record : List (String × Option String)) (st : ExecState) :
    AssetData × ExecState :=
  let data0 : AssetData := { name := resolveName m i record, assetSetId := assetSetId }
  record.foldl (fun acc col => applyColumn env m col acc) (data0, st)

/-- Result of a row loop: the imported counter, the error list in row order,
the successfully transformed rows in order, and the final threaded state. -/
structure LoopResult (α σ : Type) where
  imported : Nat
  errors : List String
  outputs : List α
  state : σ
deriving Repr

/-- The shared row-loop skeleton of execute_import and execute_user_import:
each row is processed inside a try block; a success increments the imported
counter, and an exception is caught and recorded as one error entry carrying
the row index, after which processing continues with the next row.  State
updates made before a failure are kept, matching the mutation semantics of
the source. -/
def runImportLoop {ρ σ α : Type} (step : Nat → ρ → σ → Except String α × σ) :
    Nat → List ρ → σ → LoopResult α σ
  | _, [], st => { imported := 0, errors := [], outputs := [], state := st }
  | i, r :: rs, st =>
    let (res, st1) := step i r st
    let rest := runImportLoop step (i + 1) rs st1
    match res with
    | Except.ok a =>
      { rest with imported := rest.imported + 1, outputs := a :: rest.outputs }
    | Except.error e =>
      { rest with errors := ("Row " ++ toString i ++ ": " ++ e) :: rest.errors }

/-- The asset row as a loop step: in the embedded fragment the transformation
is total, so every row succeeds.  The exceptions the source catches here arise
in collaborators outside the embedded fragment. -/
def assetStep (env : Env) (m : List (String × String)) (assetSetId : Option String)
    (i : Nat) (record : List (String × Option String)) (st : ExecState) :
    Except String AssetData × ExecState :=
  let (d, st1) := processAssetRow env m assetSetId i record st
  (Except.ok d, st1)

/-- The asset row loop of execute_import, entered with the key-normalized
mapping and the in-memory state seeded from the catalog reads. -/
def executeAssetRows (env : Env) (mapping : List (String × String))
    (assetSetId : Option String) (records : List (List (String × Option String))) :
    LoopResult AssetData ExecState :=
  runImportLoop (assetStep env (normalizeMapping mapping) assetSetId) 0 records
    { typeMap := env.typeMap, createdTypes := [], nextTypeId := env.nextTypeId }

/-- The fallback chain of execute_user_import for user columns. -/
def userFallbackTarget (k : String) : Option String :=
  if k ∈ ["email", "email_address", "mail"] then some "email"
  else if k ∈ ["name", "full_name", "fullname"] then some "full_name"
  else if k ∈ ["role", "role_name"] then some "role"
  else none

/-- Accumulator of the per-column loop of execute_user_import. -/
structure UserAcc where
  email : Option String := none
  fullName : Option String := none
  roleName : String := "user"
  extra : List (String × String) := []
deriving Repr, DecidableEq

/-- Outcome of one user row: the collected fields plus whether an existing
identity with that email was found, deciding update versus create. -/
structure UserRowData where
  email : String
  fullName : Option String
  roleName : String
  extra : List (String × String)
  existing : Bool
deriving Repr, DecidableEq

/-- One iteration of the per-column loop of execute_user_import.  Unlike the
asset loop there is no dedicated ignore check: a falsy explicit entry (absent
or empty) falls through to the fallback chain.  Unrecognized columns store the
raw value, even a whitespace-only one, into the extra bag. -/
def applyUserColumn (m : List (String × String)) (acc : UserAcc)
    (col : String × Option String) : UserAcc :=
  let (k, v) := col
  let kNorm := normalizeHeader k
  let vs := valStr v
  let explicit := dictGet m kNorm
  let target := if pyTruthy explicit then explicit else userFallbackTarget kNorm
  match target with
  | some "email" =>
    match vs with
    | some s => { acc with email := some s }
    | none => acc
  | some "full_name" =>
    match vs with
    | some s => { acc with fullName := some s }
    | none => acc
  | some "role" =>
    match vs with
    | some s => { acc with roleName := s }
    | none => acc
  | _ =>
    match v with
    | some raw => { acc with extra := acc.extra ++ [(k, raw)] }
    | none => acc

/-- Transformation of one user row: fold the column loop, then require an
email (the missing-email ValidationException is caught by the surrounding
per-row handler and becomes a row error), then look up an existing identity
by exact email to decide update versus create. -/
def processUserRow (env : Env) (m : List (String × String))
    (record : List (String × Option String)) : Except String UserRowData :=
  let acc := record.foldl (applyUserColumn m) {}
  match acc.email with
  | none => Except.error "Email is required"
  | some email =>
    Except.ok { email := email, fullName := acc.fullName, roleName := acc.roleName,
                extra := acc.extra, existing := (env.userIdByEmail email).isSome }

/-- The user row as a loop step; the user loop threads no in-memory state. -/
def userStep (env : Env) (m : List (String × String))
    (_i : Nat) (record : List (String × Option String)) (st : Unit) :
    Except String UserRowData × Unit :=
  (processUserRow env m record, st)

/-- The user row loop of execute_user_import with the key-normalized mapping. -/
def executeUserRows (env : Env) (mapping : List (String × String))
    (records : List (List (String × Option String))) : LoopResult UserRowData Unit :=
  runImportLoop (userStep env (normalizeMapping mapping)) 0 records ()

/-- Options bag of an execute call.  A none field models an absent key. -/
structure ImportOptions where
  newSetName : Option String := none
  assetSetId : Option String := none
  mapping : List (String × String) := []
  newFields : List String := []
  createMissingFields : Bool := false

/-- Environment for strategy setup: existence of an asset set by canonical id,
the uuid.UUID parse (none on ValueError, some canonical form otherwise), and
the id a newly created set receives from the flush. -/
structure SetupEnv where
  setExists : String → Bool
  parseUUID : String → Option String
  freshSetId : String

/-- Strategy handling of execute_import before the row loop.  NEW_SET creates
a set (and custom-field definitions for the requested new fields, persistence
elided) and uses its id; EXISTING_SET requires a truthy asset_set_id option,
parses it as a UUID and verifies the set exists, failing the whole job
otherwise; MERGE and any other strategy string proceed with no set. -/
def assetStrategySetup (senv : SetupEnv) (strategy : String) (opts : ImportOptions) :
    Except String (Option String) :=
  if strategy = "NEW_SET" then Except.ok (some senv.freshSetId)
  else if strategy = "EXISTING_SET" then
    if ¬ pyTruthy opts.assetSetId then
      Except.error "asset_set_id is required for EXISTING_SET strategy"
    else
      match senv.parseUUID (opts.assetSetId.getD "") with
      | none => Except.error "Invalid asset_set_id format"
      | some u =>
        if senv.setExists u then Except.ok (some u)
        else Except.error ("Asset set " ++ u ++ " not found")
  else Except.ok none

/-- Strategy handling of execute_user_import before the row loop.  NEW_SET
creates a grouping set; EXISTING_SET only requires a truthy asset_set_id
option and uses it verbatim, with no format parse and no existence check;
GLOBAL and any other strategy string proceed with no set. -/
def userStrategySetup (senv : SetupEnv) (strategy : String) (opts : ImportOptions) :
    Except String (Option String) :=
  if strategy = "NEW_SET" then Except.ok (some senv.freshSetId)
  else if strategy = "EXISTING_SET" then
    if pyTruthy opts.assetSetId then Except.ok opts.assetSetId
    else Except.error "asset_set_id is required for EXISTING_SET strategy"
  else Except.ok none

/-- The outcome report returned by a completed execution. -/
structure Outcome where
  imported : Nat
  errors : List String
  setId : Option String
deriving Repr, DecidableEq

/-- execute_import after the file has been read into records: strategy setup,
then the row loop, then the single commit and the outcome report.  A setup
failure aborts the whole job before any row is processed. -/
def executeImport (env : Env) (senv : SetupEnv) (strategy : String)
    (opts : ImportOptions) (records : List (List (String × Option String))) :
    Except String Outcome :=
  match assetStrategySetup senv strategy opts with
  | Except.error e => Except.error e
  | Except.ok assetSetId =>
    let res := executeAssetRows env opts.mapping assetSetId records
    Except.ok { imported := res.imported, errors := res.errors, setId := assetSetId }

/-- execute_user_import after the file has been read into records. -/
def executeUserImport (env : Env) (senv : SetupEnv) (strategy : String)
    (opts : ImportOptions) (records : List (List (String × Option String))) :
    Except String Outcome :=
  match userStrategySetup senv strategy opts with
  | Except.error e => Except.error e
  | Except.ok assetSetId =>
    let res := executeUserRows env opts.mapping records
    Except.ok { imported := res.imported, errors := res.errors, setId := assetSetId }

/-- Job lifecycle statuses of the Job model.  The model declares pending as
the column default. -/
inductive JStatus
  | pending
  | running
  | completed
  | failed
deriving Repr, DecidableEq

/-- Payload recorded on the job created by upload intake. -/
structure JobPayload where
  filePath : String
  filename : Option String
  uploadedBy : String
  sizeBytes : Nat
deriving Repr, DecidableEq

/-- The persisted job reference returned by create_import_job. -/
structure JobRec where
  status : JStatus
  payload : JobPayload
deriving Repr, DecidableEq

/-- The extension allow-list ALLOWED_EXTS. -/
def allowedExts : List String := [".csv", ".xlsx", ".xls", ".json"]

/-- Last path component, as pathlib computes the name: the final nonempty
piece between slashes. -/
def lastComponent (s : String) : String :=
  match ((pySplit s '/').filter (· ≠ "")).getLast? with
  | some t => t
  | none => ""

/-- Index of the last occurrence of a character in a list, if any. -/
def lastIdxOf (c : Char) (cs : List Char) : Option Nat :=
  ((List.range cs.length).filter (fun i => cs.get? i = some c)).getLast?

/-- pathlib Path(...).suffix: in the last component, the substring from the
last dot on, provided that dot is neither the first nor the last character of
the component. -/
def pathSuffix (p : String) : String :=
  let cs := (lastComponent p).data
  match lastIdxOf '.' cs with
  | some i => if 0 < i ∧ i < cs.length - 1 then String.mk (cs.drop i) else ""
  | none => ""

/-- os.path.splitext extension: in the last component, the substring from the
last dot on, provided some earlier character of the component is not a dot. -/
def splitextSuffix (p : String) : String :=
  let cs := (lastComponent p).data
  match lastIdxOf '.' cs with
  | some i => if (cs.take i).any (· ≠ '.') then String.mk (cs.drop i) else ""
  | none => ""

/-- The helper _validate_ext: lowercase suffix of the declared filename (empty
string treated as the filename when absent), admitted only on the allow-list. -/
def validateExt (filename : Option String) : Except String String :=
  let ext := pyLower (pathSuffix (filename.getD ""))
  if ext ∈ allowedExts then Except.ok ext
  else Except.error "Unsupported file type"

/-- Maximum upload size in bytes: a large admin cap, else the parsed value of
the import_max_upload_mb system setting (none when absent or unparseable,
keeping the 50MB default). -/
def resolveMaxBytes (isAdmin : Bool) (settingMB : Option Nat) : Nat :=
  if isAdmin then 10 * 1024 * 1024 * 1024
  else
    match settingMB with
    | some mb => mb * 1024 * 1024
    | none => 50 * 1024 * 1024

/-- The chunked write loop of create_import_job over the sizes of the chunks
read from the stream: the running total is checked against the limit after
each chunk and the loop aborts as soon as it exceeds the limit. -/
def streamChunks (maxBytes : Nat) : Nat → List Nat → Except String Nat
  | size, [] => Except.ok size
  | size, c :: cs =>
    let size1 := size + c
    if size1 > maxBytes then Except.error "File size exceeds limit"
    else streamChunks maxBytes size1 cs

/-- Result of an upload: the persisted job when intake succeeded, the error
otherwise, and whether the destination file remains on disk (a failed upload
unlinks the partially written file). -/
structure UploadResult where
  job : Option JobRec
  err : Option String
  fileKept : Bool
deriving Repr

/-- create_import_job: validate the extension, stream the chunks under the
size limit, unlink the file and persist nothing on failure; on success persist
a job whose payload records the destination path, the original filename, the
uploader id and the byte count.  The source sets the created job status to
JobStatus.completed. -/
def createImportJob (maxBytes : Nat) (destPath : String) (filename : Option String)
    (chunks : List Nat) (uploaderId : String) : UploadResult :=
  match validateExt filename with
  | Except.error e => { job := none, err := some e, fileKept := false }
  | Except.ok _ =>
    match streamChunks maxBytes 0 chunks with
    | Except.error e => { job := none, err := some e, fileKept := false }
    | Except.ok size =>
      { job := some { status := JStatus.completed,
                      payload := { filePath := destPath, filename := filename,
                                   uploadedBy := uploaderId, sizeBytes := size } },
        err := none, fileKept := true }

/-- A job as tracked by execute_import_background_wrapper. -/
structure TrackedJob where
  status : JStatus
  result : Option Outcome := none
  error : Option String := none
deriving Repr, DecidableEq

/-- execute_import_background_wrapper around one execution run: the job is
set to running and committed, the import executes, and the job is then set to
completed with the outcome attached, or, when the execution raised, to failed
with the error message attached; the exception is swallowed at the job
boundary.  The returned list is the sequence of committed statuses. -/
def executeBackgroundWrapper (run : Except String Outcome) (job : TrackedJob) :
    TrackedJob × List JStatus :=
  let j1 : TrackedJob := { job with status := JStatus.running }
  match run with
  | Except.ok r =>
    ({ j1 with status := JStatus.completed, result := some r },
     [JStatus.running, JStatus.completed])
  | Except.error e =>
    ({ j1 with status := JStatus.failed, error := some e },
     [JStatus.running, JStatus.failed])

/-- Test whether the first character list occurs at the head of the second. -/
def matchesAt : List Char → List Char → Bool
  | [], _ => true
  | _ :: _, [] => false
  | n :: ns, h :: hs => n = h ∧ matchesAt ns hs

/-- Substring containment over character lists. -/
def containsSubAux (needle : List Char) : List Char → Bool
  | [] => matchesAt needle []
  | h :: hs => matchesAt needle (h :: hs) ∨ containsSubAux needle hs

/-- Substring containment for strings, modelling the Python in operator. -/
def containsSub (hay needle : String) : Bool :=
  containsSubAux needle.data hay.data

/-- Leading-match test for strings, modelling str.startswith. -/
def strStartsWith (s pre : String) : Bool :=
  matchesAt pre.data s.data

/-- Purely lexical model of pathlib Path.resolve on an absolute-or-relative
posix path with no symbolic links: join with the working directory when
relative, then fold the components, dropping empty and dot components and
letting a dot-dot component remove the previous one. -/
def resolvePath (cwd p : String) : String :=
  let joined := if strStartsWith p "/" then p else cwd ++ "/" ++ p
  let comps := (pySplit joined '/').foldl
    (fun acc c =>
      if c = "" ∨ c = "." then acc
      else if c = ".." then acc.dropLast
      else acc ++ [c]) []
  "/" ++ String.mk (joinWith '/' (comps.map String.data))

/-- The helper _validate_safe_path: reject an empty path, reject any path
containing a URL scheme marker, resolve the path, reject it unless its string
form starts with the string form of the upload directory, reject it unless it
is an existing file, and return the resolved path.  isFile models the
filesystem query, cwd the process working directory. -/
def validateSafePath (uploadDir : String) (isFile : String → Bool) (cwd : String)
    (filePath : String) : Except String String :=
  if filePath = "" then Except.error "File path is empty"
  else if containsSub filePath "://" then
    Except.error "Invalid file path: URLs are not allowed"
  else
    let p := resolvePath cwd filePath
    if ¬ strStartsWith p uploadDir then Except.error "Invalid file path: Access denied"
    else if ¬ isFile p then Except.error ("File not found: " ++ filePath)
    else Except.ok p

/-- The helper _read_file up to the point a file is opened: validate the path,
then dispatch on the lowercased splitext extension of the original path
argument; the pandas reader is then given that original path.  The ok result
is the path that gets opened; every error path opens nothing. -/
def readFileOpens (uploadDir : String) (isFile : String → Bool) (cwd : String)
    (filePath : String) : Except String String :=
  match validateSafePath uploadDir isFile cwd filePath with
  | Except.error e => Except.error e
  | Except.ok _ =>
    let ext := pyLower (splitextSuffix filePath)
    if ext = ".csv" ∨ ext = ".xlsx" ∨ ext = ".xls" ∨ ext = ".json" then
      Except.ok filePath
    else Except.error ("Unsupported file format: " ++ ext)

/-- Modelled from the spec (section 4.1): the intended safety property that a
path resolves inside the designated upload directory, meaning the resolved
path is the directory itself or a descendant of it.  Stated for comparison
with the string-prefix check the source performs. -/
def specPathInsideDir (uploadDir resolved : String) : Bool :=
  resolved = uploadDir ∨ strStartsWith resolved (uploadDir ++ "/")

/-- The compiled-in static asset field set of analyze_file. -/
def staticAssetFields : List String :=
  ["name", "status", "serial_number", "location", "tags", "asset_type_id",
   "purchase_date", "purchase_price", "vendor", "order_number", "warranty_end",
   "assigned_user_id"]

/-- One entry of the mapped_fields list produced by analyze_file. -/
structure MappedField where
  header : String
  target : String
  key : String
deriving Repr, DecidableEq

/-- Header classification loop of analyze_file: normalize each header with
analyzeKey, classify it as a static field on an exact match, as a custom
field on an exact match against the global custom-field keys, and otherwise
append it to the new-fields list.  There is no synonym tier here. -/
def analyzeHeaders (customFieldKeys : List String) (headers : List String) :
    List MappedField × List String :=
  headers.foldl
    (fun acc h =>
      let key := analyzeKey h
      if key ∈ staticAssetFields then
        (acc.1 ++ [{ header := h, target := "static", key := key }], acc.2)
      else if key ∈ customFieldKeys then
        (acc.1 ++ [{ header := h, target := "custom", key := key }], acc.2)
      else (acc.1, acc.2 ++ [h]))
    ([], [])

/-- Length of the longest common leading run of two character lists. -/
def prefLen : List Char → List Char → Nat
  | a :: as, b :: bs => if a = b then prefLen as bs + 1 else 0
  | _, _ => 0

/-- The longest matching block between two character lists, as the difflib
find_longest_match computes it with no junk: the triple of start in a, start
in b and size, maximal in size and, among maximal blocks, earliest in a and
then in b.  The fold scans starts in increasing order and replaces the best
candidate only on a strictly larger size. -/
def bestMatch (a b : List Char) : Nat × Nat × Nat :=
  (List.range a.length).foldl
    (fun best i =>
      (List.range b.length).foldl
        (fun best j =>
          let k := prefLen (a.drop i) (b.drop j)
          if best.2.2 < k then (i, j, k) else best)
        best)
    (0, 0, 0)

/-- Total size of the matching blocks of difflib get_matching_blocks with no
junk: the longest match splits both sequences and the two sides are handled
recursively.  The fuel argument bounds the recursion depth; fuel equal to the
length of the first list always suffices, since each recursive call gets a
strictly shorter first list whenever the found block is nonempty. -/
def matchSizeAux : Nat → List Char → List Char → Nat
  | 0, _, _ => 0
  | fuel + 1, a, b =>
    let (i, j, k) := bestMatch a b
    if k = 0 then 0
    else
      matchSizeAux fuel (a.take i) (b.take j) + k +
        matchSizeAux fuel (a.drop (i + k)) (b.drop (j + k))

def matchSize (a b : List Char) : Nat := matchSizeAux a.length a b

/-- The difflib SequenceMatcher ratio of candidate a against word b as an
exact rational: twice the total matching size over the total length, and one
when both are empty.  The quick-ratio gates of get_close_matches are upper
bounds of this value, so the cutoff test reduces to this ratio alone. -/
def simScore (a b : String) : ℚ :=
  let la := a.data.length
  let lb := b.data.length
  if la + lb = 0 then 1 else mkRat (2 * (matchSize a.data b.data)) (la + lb)

/-- Lexicographic comparison of character lists by code point, with a proper
leading run comparing as smaller, modelling the string comparison Python
applies to the nlargest tuples. -/
def lcLt : List Char → List Char → Bool
  | [], [] => false
  | [], _ :: _ => true
  | _ :: _, [] => false
  | a :: as, b :: bs => if a = b then lcLt as bs else a < b

/-- Lexicographic comparison of strings by code point. -/
def strLt (x y : String) : Bool := lcLt x.data y.data

/-- Strict tuple comparison heapq.nlargest applies to score-string pairs:
first by score, then by the candidate string. -/
def betterPair (q p : ℚ × String) : Bool :=
  q.1 < p.1 ∨ (q.1 = p.1 ∧ strLt q.2 p.2 = true)

/-- Non-strict tuple order on score-string pairs, used to state maximality of
the selected match. -/
def pairLe (p q : ℚ × String) : Prop :=
  p.1 < q.1 ∨ (p.1 = q.1 ∧ (strLt p.2 q.2 = true ∨ p.2 = q.2))

/-- Left-to-right selection of the tuple-largest scored pair, replacing the
current best only on a strict tuple increase. -/
def pickBest (init : Option (ℚ × String)) (l : List (ℚ × String)) :
    Option (ℚ × String) :=
  l.foldl
    (fun best p =>
      match best with
      | none => some p
      | some q => if betterPair q p then some p else some q)
    init

/-- difflib get_close_matches with n equal to one: keep the possibilities
whose ratio against the word reaches the cutoff, then take the largest scored
pair, compared by score and then by the string itself, as heapq.nlargest
compares the score-string tuples. -/
def closeMatchesOne (word : String) (poss : List String) (cutoff : ℚ) : Option String :=
  let scored := poss.filterMap
    (fun x => let r := simScore x word; if cutoff ≤ r then some (r, x) else none)
  (pickBest none scored).map (·.2)

/-- The user_map of analyze_file: lowercased email to identity id, built from
the full user directory in query order with dict overwrite semantics. -/
def buildUserMap (users : List (String × String)) : List (String × String) :=
  users.map (fun u => (pyLower u.1, u.2))

/-- Cutoff used by analyze_file for fuzzy person matching.  The source passes
the float 0.6; the exact rational is faithful for every ratio whose
denominator is small enough to occur here. -/
def fuzzyCutoff : ℚ := mkRat 3 5

/-- Person-reference resolution of analyze_file for one distinct raw value:
strip it, match its lowercase form exactly against the known lowercased
emails, and otherwise accept the single fuzzy match get_close_matches returns
above the cutoff, mapping it back through the user map. -/
def userMatchFor (userMap : List (String × String)) (val : String) : Option String :=
  let v := pyStrip val
  match dictGet userMap (pyLower v) with
  | some uid => some uid
  | none =>
    match closeMatchesOne (pyLower v) (userMap.map (·.1)) fuzzyCutoff with
    | some m => dictGet userMap m
    | none => none

/-- An execution environment with an empty catalog, no parseable dates or
prices, no uuid values and an empty user directory, used to evaluate the
model at concrete inputs. -/
def envBare : Env where
  statusMap := []
  typeMap := []
  nextTypeId := 0
  parseDate := fun _ => none
  parseFloat := fun _ => none
  isUUID := fun _ => false
  userIdByEmail := fun _ => none

/-- A setup environment in which no asset set exists and no string parses as
a UUID. -/
def senvNone : SetupEnv where
  setExists := fun _ => false
  parseUUID := fun _ => none
  freshSetId := "set-1"

/-- Modelled from the claim wording for status resolution, for comparison
with resolveStatusId: lowercase the value, normalize it through the synonym
table first, then look the normalized value up, falling back to the status
named active when configured and otherwise leaving the status unset. -/
def claimStatusResolve (statusMap : List (String × Nat)) (vs : String) : Option Nat :=
  let sVal := pyLower vs
  let canon := (dictGet statusSynonyms sVal).getD sVal
  match dictGet statusMap canon with
  | some i => some i
  | none => dictGet statusMap "active"

/-! Theorems.  Helper lemmas come first, then one theorem per claim with its
witness or counterexample. -/

/-- Helper: the row loop preserves the accounting invariant that the imported
counter plus the number of error entries equals the number of rows. -/
theorem runImportLoop_count {ρ σ α : Type} (step : Nat → ρ → σ → Except String α × σ) :
    ∀ (records : List ρ) (i0 : Nat) (st : σ),
      (runImportLoop step i0 records st).imported +
        (runImportLoop step i0 records st).errors.length = records.length
  | [], _, _ => rfl
  | r :: rs, i, st => by
    rcases hstep : step i r st with ⟨res, st1⟩
    have ih := runImportLoop_count step rs (i + 1) st1
    simp only [runImportLoop, hstep]
    cases res with
    | ok a => simp only [List.length_cons]; omega
    | error e => simp only [List.length_cons]; omega

/-- Helper: every entry of the error list carries a row index in the fixed
format. -/
theorem runImportLoop_error_format {ρ σ α : Type}
    (step : Nat → ρ → σ → Except String α × σ) :
    ∀ (records : List ρ) (i0 : Nat) (st : σ) (e : String),
      e ∈ (runImportLoop step i0 records st).errors →
      ∃ (i : Nat) (msg : String), e = "Row " ++ toString i ++ ": " ++ msg
  | [], _, _, _ => by intro h; simp [runImportLoop] at h
  | r :: rs, i, st, e => by
    intro h
    rcases hstep : step i r st with ⟨res, st1⟩
    have ih := runImportLoop_error_format step rs (i + 1) st1 e
    simp only [runImportLoop, hstep] at h
    cases res with
    | ok a => exact ih h
    | error msg =>
      rcases List.mem_cons.mp h with h1 | h2
      · exact ⟨i, msg, h1⟩
      · exact ih h2

/-- C1: for both the asset and the user import row loop, every row
contributes exactly one of an increment of the imported counter or one error
entry of the fixed row-indexed form; a row failure does not abort the loop,
and any outcome report reached by the final commit satisfies imported plus
error count equals total rows. -/
theorem c1_row_loop_accounting :
    (∀ (ρ σ α : Type) (step : Nat → ρ → σ → Except String α × σ)
       (records : List ρ) (i0 : Nat) (st : σ),
       (runImportLoop step i0 records st).imported +
         (runImportLoop step i0 records st).errors.length = records.length) ∧
    (∀ (ρ σ α : Type) (step : Nat → ρ → σ → Except String α × σ)
       (records : List ρ) (i0 : Nat) (st : σ) (e : String),
       e ∈ (runImportLoop step i0 records st).errors →
       ∃ (i : Nat) (msg : String), e = "Row " ++ toString i ++ ": " ++ msg) ∧
    (∀ (env : Env) (senv : SetupEnv) (strategy : String) (opts : ImportOptions)
       (records : List (List (String × Option String))) (out : Outcome),
       executeImport env senv strategy opts records = Except.ok out →
       out.imported + out.errors.length = records.length) ∧
    (∀ (env : Env) (senv : SetupEnv) (strategy : String) (opts : ImportOptions)
       (records : List (List (String × Option String))) (out : Outcome),
       executeUserImport env senv strategy opts records = Except.ok out →
       out.imported + out.errors.length = records.length) := by
  refine ⟨fun ρ σ α step records i0 st => runImportLoop_count step records i0 st,
    fun ρ σ α step records i0 st e h => runImportLoop_error_format step records i0 st e h,
    ?_, ?_⟩
  · intro env senv strategy opts records out h
    unfold executeImport at h
    cases hs : assetStrategySetup senv strategy opts with
    | error e => rw [hs] at h; cases h
    | ok sid =>
      rw [hs] at h
      injection h with h
      subst h
      simpa [executeAssetRows] using
        runImportLoop_count (assetStep env (normalizeMapping opts.mapping) sid) records 0 _
  · intro env senv strategy opts records out h
    unfold executeUserImport at h
    cases hs : userStrategySetup senv strategy opts with
    | error e => rw [hs] at h; cases h
    | ok sid =>
      rw [hs] at h
      injection h with h
      subst h
      simpa [executeUserRows] using
        runImportLoop_count (userStep env (normalizeMapping opts.mapping)) records 0 ()

/-- Witness for C1 at a concrete two-row user import in which the first row
lacks an email and the second succeeds: the loop continues past the failure,
one row imports, one formatted error is recorded, and the counts add up. -/
theorem c1_row_loop_accounting_witness :
    ((runImportLoop (userStep envBare []) 0
        [[("Widget", some "w")], [("Email", some "a@b.c")]] ()).imported +
      (runImportLoop (userStep envBare []) 0
        [[("Widget", some "w")], [("Email", some "a@b.c")]] ()).errors.length = 2) ∧
    (∃ (i : Nat) (msg : String), "Row 0: Email is required" = "Row " ++ toString i ++ ": " ++ msg) ∧
    ((⟨1, ["Row 0: Email is required"], none⟩ : Outcome).imported +
      (⟨1, ["Row 0: Email is required"], none⟩ : Outcome).errors.length = 2) :=
  ⟨c1_row_loop_accounting.1 _ _ _ (userStep envBare []) _ 0 (),
   c1_row_loop_accounting.2.1 _ _ _ (userStep envBare [])
     [[("Widget", some "w")], [("Email", some "a@b.c")]] 0 () _ (by decide),
   c1_row_loop_accounting.2.2.2 envBare senvNone "GLOBAL" {}
     [[("Widget", some "w")], [("Email", some "a@b.c")]] _ rfl⟩

/-- C2: the path guard of the file reader is a string-prefix comparison, not a
directory-containment check.  A file in a sibling directory whose absolute
path merely starts with the upload-directory string, here
/srv/uploads_evil/data.csv against upload directory /srv/uploads, contains no
URL scheme marker, resolves outside the upload directory in the sense of the
specification, and is nevertheless accepted by the validator and opened by
the reader.  This contradicts the stated property and the docstring of
_validate_safe_path itself. -/
theorem c2_path_guard_accepts_sibling :
    validateSafePath "/srv/uploads" (fun _ => true) "/" "/srv/uploads_evil/data.csv" =
      Except.ok "/srv/uploads_evil/data.csv" ∧
    readFileOpens "/srv/uploads" (fun _ => true) "/" "/srv/uploads_evil/data.csv" =
      Except.ok "/srv/uploads_evil/data.csv" ∧
    containsSub "/srv/uploads_evil/data.csv" "://" = false ∧
    specPathInsideDir "/srv/uploads"
      (resolvePath "/" "/srv/uploads_evil/data.csv") = false := by
  refine ⟨rfl, rfl, by decide, by decide⟩

/-- C3 counterexample: with the single column Name explicitly mapped to the
ignore sentinel, the created record still carries the ignored column value
Laptop as its name, because the name-resolution fallback scans headers
without consulting the mapping.  The ignore sentinel therefore does not
suppress the column from every static field. -/
theorem c3_ignore_counterexample :
    dictGet (normalizeMapping [("Name", "")]) (normalizeHeader "Name") = some "" ∧
    (processAssetRow envBare (normalizeMapping [("Name", "")]) none 0
        [("Name", some "Laptop")]
        { typeMap := [], createdTypes := [], nextTypeId := 0 }).1.name = "Laptop" := by
  exact ⟨rfl, rfl⟩

/-- C3 as amended: inside the per-column loop an explicit mapping entry always
wins.  The ignore sentinel removes the column from the loop entirely, so its
value reaches no static field assignment of the loop and no extra-bag entry;
a non-empty explicit entry fixes the dispatch target, so no synonym fallback
is consulted.  The name fallback that runs before the loop is the one
exception recorded by the counterexample. -/
theorem c3_explicit_mapping_overrides :
    (∀ (env : Env) (m : List (String × String)) (k : String) (v : Option String)
       (acc : AssetData × ExecState),
       dictGet m (normalizeHeader k) = some "" →
       applyColumn env m (k, v) acc = acc) ∧
    (∀ (env : Env) (m : List (String × String)) (k s : String)
       (acc : AssetData × ExecState) (t : String),
       dictGet m (normalizeHeader k) = some t → t ≠ "" →
       applyColumn env m (k, some s) acc =
         if pyStrip s = "" then acc else dispatchTarget env (some t) k s acc) := by
  constructor
  · intro env m k v acc hmap
    cases hv : valStr v with
    | none => simp [applyColumn, hv]
    | some vs => simp [applyColumn, hv, hmap]
  · intro env m k s acc t hmap ht
    by_cases hs : pyStrip s = ""
    · simp [applyColumn, valStr, hs]
    · simp [applyColumn, valStr, hs, hmap, ht]

/-- Witness for C3 instantiating both parts: an ignored column leaves the
accumulator untouched, and an explicit serial-number entry on a header whose
synonym default would be status dispatches as serial_number. -/
theorem c3_explicit_mapping_overrides_witness :
    (applyColumn envBare (normalizeMapping [("Name", "")]) ("Name", some "Laptop")
        ({ name := "x" }, { typeMap := [], createdTypes := [], nextTypeId := 0 }) =
      ({ name := "x" }, { typeMap := [], createdTypes := [], nextTypeId := 0 })) ∧
    (applyColumn envBare (normalizeMapping [("State", "serial_number")])
        ("State", some "S77")
        ({ name := "x" }, { typeMap := [], createdTypes := [], nextTypeId := 0 }) =
      if pyStrip "S77" = "" then
        ({ name := "x" }, { typeMap := [], createdTypes := [], nextTypeId := 0 })
      else
        dispatchTarget envBare (some "serial_number") "State" "S77"
          ({ name := "x" }, { typeMap := [], createdTypes := [], nextTypeId := 0 })) :=
  ⟨c3_explicit_mapping_overrides.1 envBare (normalizeMapping [("Name", "")])
      "Name" (some "Laptop") _ rfl,
   c3_explicit_mapping_overrides.2 envBare (normalizeMapping [("State", "serial_number")])
      "State" "S77" _ "serial_number" rfl (by decide)⟩

/-- C4: upload intake persists the new job with status completed, not
pending, although the Job model declares pending as the column default and
the wrapper then drives running to completed or failed; the wrapper itself
does transition the job to running and then to completed with the result
attached, or to failed with the error message attached, swallowing the
exception at the job boundary. -/
theorem c4_job_created_completed :
    ((createImportJob (50 * 1024 * 1024) "/srv/uploads/ab12.csv" (some "assets.csv")
        [10] "user-1").job =
      some { status := JStatus.completed,
             payload := { filePath := "/srv/uploads/ab12.csv",
                          filename := some "assets.csv",
                          uploadedBy := "user-1", sizeBytes := 10 } }) ∧
    JStatus.completed ≠ JStatus.pending ∧
    (∀ (out : Outcome) (job : TrackedJob),
       executeBackgroundWrapper (Except.ok out) job =
         ({ job with status := JStatus.completed, result := some out },
          [JStatus.running, JStatus.completed])) ∧
    (∀ (e : String) (job : TrackedJob),
       executeBackgroundWrapper (Except.error e) job =
         ({ job with status := JStatus.failed, error := some e },
          [JStatus.running, JStatus.failed])) := by
  refine ⟨rfl, by decide, fun out job => rfl, fun e job => rfl⟩

/-- C5 counterexample: under EXISTING_SET the user import accepts a grouping
reference that names no existing set and does not even parse as a UUID: with
an environment in which no set exists, setup succeeds and the whole user run
reaches a completed outcome instead of failing the job.  The asset setup
rejects the same reference. -/
theorem c5_user_existing_set_counterexample :
    userStrategySetup senvNone "EXISTING_SET" { assetSetId := some "not-a-uuid" } =
      Except.ok (some "not-a-uuid") ∧
    executeUserImport envBare senvNone "EXISTING_SET" { assetSetId := some "not-a-uuid" }
        [[("Email", some "a@b.c")]] =
      Except.ok { imported := 1, errors := [], setId := some "not-a-uuid" } ∧
    assetStrategySetup senvNone "EXISTING_SET" { assetSetId := some "not-a-uuid" } =
      Except.error "Invalid asset_set_id format" := by
  exact ⟨rfl, rfl, rfl⟩

/-- C5 as amended: for asset imports the EXISTING_SET strategy is validated
before any row is processed, failing the whole job on a missing, malformed or
nonexistent reference and proceeding only for an existing set; for a user
run only a missing (absent or empty) reference fails the job, and any
non-empty reference is used verbatim with no format or existence
validation. -/
theorem c5_existing_set_validation :
    (∀ (senv : SetupEnv) (opts : ImportOptions),
       pyTruthy opts.assetSetId = false →
       assetStrategySetup senv "EXISTING_SET" opts =
         Except.error "asset_set_id is required for EXISTING_SET strategy") ∧
    (∀ (senv : SetupEnv) (opts : ImportOptions),
       pyTruthy opts.assetSetId = true →
       senv.parseUUID (opts.assetSetId.getD "") = none →
       assetStrategySetup senv "EXISTING_SET" opts =
         Except.error "Invalid asset_set_id format") ∧
    (∀ (senv : SetupEnv) (opts : ImportOptions) (u : String),
       pyTruthy opts.assetSetId = true →
       senv.parseUUID (opts.assetSetId.getD "") = some u →
       senv.setExists u = false →
       assetStrategySetup senv "EXISTING_SET" opts =
         Except.error ("Asset set " ++ u ++ " not found")) ∧
    (∀ (senv : SetupEnv) (opts : ImportOptions) (u : String),
       pyTruthy opts.assetSetId = true →
       senv.parseUUID (opts.assetSetId.getD "") = some u →
       senv.setExists u = true →
       assetStrategySetup senv "EXISTING_SET" opts = Except.ok (some u)) ∧
    (∀ (senv : SetupEnv) (opts : ImportOptions),
       pyTruthy opts.assetSetId = false →
       userStrategySetup senv "EXISTING_SET" opts =
         Except.error "asset_set_id is required for EXISTING_SET strategy") ∧
    (∀ (senv : SetupEnv) (opts : ImportOptions),
       pyTruthy opts.assetSetId = true →
       userStrategySetup senv "EXISTING_SET" opts = Except.ok opts.assetSetId) := by
  refine ⟨?_, ?_, ?_, ?_, ?_, ?_⟩
  · intro senv opts h
    simp [assetStrategySetup, h]
  · intro senv opts h hp
    simp [assetStrategySetup, h, hp]
  · intro senv opts u h hp he
    simp [assetStrategySetup, h, hp, he]
  · intro senv opts u h hp he
    simp [assetStrategySetup, h, hp, he]
  · intro senv opts h
    simp [userStrategySetup, h]
  · intro senv opts h
    simp [userStrategySetup, h]

/-- Witness for C5 instantiating the asset-side existence check and the
user-side pass-through at a concrete setup environment. -/
theorem c5_existing_set_validation_witness :
    (assetStrategySetup
        { setExists := fun s => s = "u-1", parseUUID := fun s => some s,
          freshSetId := "f" }
        "EXISTING_SET" { assetSetId := some "u-2" } =
      Except.error ("Asset set " ++ "u-2" ++ " not found")) ∧
    (assetStrategySetup
        { setExists := fun s => s = "u-1", parseUUID := fun s => some s,
          freshSetId := "f" }
        "EXISTING_SET" { assetSetId := some "u-1" } = Except.ok (some "u-1")) ∧
    (userStrategySetup senvNone "EXISTING_SET" { assetSetId := some "u-2" } =
      Except.ok (some "u-2")) :=
  ⟨c5_existing_set_validation.2.2.1
      { setExists := fun s => s = "u-1", parseUUID := fun s => some s, freshSetId := "f" }
      { assetSetId := some "u-2" } "u-2" (by decide) rfl (by decide),
   c5_existing_set_validation.2.2.2.1
      { setExists := fun s => s = "u-1", parseUUID := fun s => some s, freshSetId := "f" }
      { assetSetId := some "u-1" } "u-1" (by decide) rfl (by decide),
   c5_existing_set_validation.2.2.2.2.2 senvNone { assetSetId := some "u-2" } (by decide)⟩

/-- C6 counterexample: for a status table that contains a row named deployed
but none named active, and the cell value deployed, the code resolves the
status to the deployed row by direct lookup, while the claimed order
(synonym normalization before lookup, then the configured default, else
unset) resolves it to nothing, since the synonym rewrites deployed to active
and no active row exists. -/
theorem c6_status_order_counterexample :
    resolveStatusId [("deployed", 1)] "deployed" = some 1 ∧
    claimStatusResolve [("deployed", 1)] "deployed" = none ∧
    dictGet statusSynonyms "deployed" = some "active" := by
  exact ⟨rfl, rfl, rfl⟩

/-- C6 as amended: the lowercased raw value is looked up directly in the
status table first; the value-level synonym table is consulted only when the
direct lookup misses; if the synonym target is also unknown, or no synonym
applies, the status falls back to the lookup row named active when one is
configured and otherwise remains unset, with no row error recorded in either
case. -/
theorem c6_status_resolution :
    (∀ (statusMap : List (String × Nat)) (vs : String) (i : Nat),
       dictGet statusMap (pyLower vs) = some i →
       resolveStatusId statusMap vs = some i) ∧
    (∀ (statusMap : List (String × Nat)) (vs : String) (c : String) (i : Nat),
       dictGet statusMap (pyLower vs) = none →
       dictGet statusSynonyms (pyLower vs) = some c →
       dictGet statusMap c = some i →
       resolveStatusId statusMap vs = some i) ∧
    (∀ (statusMap : List (String × Nat)) (vs : String) (c : String),
       dictGet statusMap (pyLower vs) = none →
       dictGet statusSynonyms (pyLower vs) = some c →
       dictGet statusMap c = none →
       resolveStatusId statusMap vs = dictGet statusMap "active") ∧
    (∀ (statusMap : List (String × Nat)) (vs : String),
       dictGet statusMap (pyLower vs) = none →
       dictGet statusSynonyms (pyLower vs) = none →
       resolveStatusId statusMap vs = dictGet statusMap "active") := by
  refine ⟨?_, ?_, ?_, ?_⟩
  · intro statusMap vs i h
    simp [resolveStatusId, h]
  · intro statusMap vs c i h hs hc
    simp [resolveStatusId, h, hs, hc]
  · intro statusMap vs c h hs hc
    simp [resolveStatusId, h, hs, hc]
  · intro statusMap vs h hs
    simp [resolveStatusId, h, hs]

/-- Witness for C6 instantiating every branch of the resolution order at
concrete tables: a direct hit, a synonym hit, the active fallback with a
configured active row, and the unset case. -/
theorem c6_status_resolution_witness :
    resolveStatusId [("in_stock", 4)] "In_Stock" = some 4 ∧
    resolveStatusId [("in_stock", 4)] "In Storage" = some 4 ∧
    resolveStatusId [("active", 9)] "Mystery" = dictGet [("active", 9)] "active" ∧
    resolveStatusId [] "Mystery" = dictGet [] "active" :=
  ⟨c6_status_resolution.1 [("in_stock", 4)] "In_Stock" 4 (by decide),
   c6_status_resolution.2.1 [("in_stock", 4)] "In Storage" "in_stock" 4
     (by decide) (by decide) (by decide),
   c6_status_resolution.2.2.2 [("active", 9)] "Mystery" (by decide) (by decide),
   c6_status_resolution.2.2.2 [] "Mystery" (by decide) (by decide)⟩

/-- C7: an asset-type value whose lowercase form is already in the in-memory
type map reuses the mapped id with no state change; an unrecognized value
creates exactly one new type, named by the original value, and enters it into
the in-memory map immediately.  In a concrete two-row batch whose type values
differ only by case, exactly one type entity is created, both rows import
successfully with the same type id, and no error is recorded. -/
theorem c7_type_created_on_the_fly :
    (∀ (st : ExecState) (vs : String) (i : Nat),
       dictGet st.typeMap (pyLower vs) = some i →
       resolveTypeId st vs = (i, st)) ∧
    (∀ (st : ExecState) (vs : String),
       dictGet st.typeMap (pyLower vs) = none →
       resolveTypeId st vs =
         (st.nextTypeId,
          { typeMap := st.typeMap ++ [(pyLower vs, st.nextTypeId)],
            createdTypes := st.createdTypes ++ [vs],
            nextTypeId := st.nextTypeId + 1 })) ∧
    ((executeAssetRows envBare [] none
        [[("Type", some "Laptop"), ("Name", some "A")],
         [("Type", some "laptop"), ("Name", some "B")]]).imported = 2 ∧
     (executeAssetRows envBare [] none
        [[("Type", some "Laptop"), ("Name", some "A")],
         [("Type", some "laptop"), ("Name", some "B")]]).errors = [] ∧
     (executeAssetRows envBare [] none
        [[("Type", some "Laptop"), ("Name", some "A")],
         [("Type", some "laptop"), ("Name", some "B")]]).state.createdTypes =
       ["Laptop"] ∧
     (executeAssetRows envBare [] none
        [[("Type", some "Laptop"), ("Name", some "A")],
         [("Type", some "laptop"), ("Name", some "B")]]).outputs.map
         (fun d => d.assetTypeId) = [some 0, some 0]) := by
  refine ⟨?_, ?_, rfl, rfl, rfl, rfl⟩
  · intro st vs i h
    simp [resolveTypeId, h]
  · intro st vs h
    simp [resolveTypeId, h]

/-- Witness for C7 instantiating the reuse and the creation branch at a
concrete state. -/
theorem c7_type_created_on_the_fly_witness :
    (resolveTypeId { typeMap := [("laptop", 3)], createdTypes := [], nextTypeId := 7 }
        "LapTop" = (3, { typeMap := [("laptop", 3)], createdTypes := [], nextTypeId := 7 })) ∧
    (resolveTypeId { typeMap := [("laptop", 3)], createdTypes := [], nextTypeId := 7 }
        "Printer" =
      (7, { typeMap := [("laptop", 3), ("printer", 7)], createdTypes := ["Printer"],
            nextTypeId := 8 })) :=
  ⟨c7_type_created_on_the_fly.1
      { typeMap := [("laptop", 3)], createdTypes := [], nextTypeId := 7 } "LapTop" 3
      (by decide),
   c7_type_created_on_the_fly.2.1
      { typeMap := [("laptop", 3)], createdTypes := [], nextTypeId := 7 } "Printer"
      (by decide)⟩

/-- C8 counterexample: on the headers Name, Serial Tag, State and Cost with
no explicit mapping and no custom fields, analyze_file does not classify
Serial Tag as the static field serial_number: the analysis loop has no
synonym tier, so Serial Tag lands in the new-fields list instead. -/
theorem c8_analysis_counterexample :
    ({ header := "Serial Tag", target := "static", key := "serial_number" } : MappedField) ∉
      (analyzeHeaders [] ["Name", "Serial Tag", "State", "Cost"]).1 ∧
    "Serial Tag" ∈ (analyzeHeaders [] ["Name", "Serial Tag", "State", "Cost"]).2 := by
  exact ⟨by decide, by decide⟩

/-- C8 as amended: the analysis step classifies by exact key match only, so
for the headers Name, Serial Tag, State and Cost it maps Name to the static
field name and reports Serial Tag, State and Cost all as unmapped new fields.
The synonym fallback lives in the executor only, and there the normalized key
serial_tag is not a synonym either (the chain lists service_tag, servicetag,
sn, s_n, serial and serial_number), while state maps to status and cost maps
to purchase_price rather than staying unmapped. -/
theorem c8_analysis_exact_match_only :
    (analyzeHeaders [] ["Name", "Serial Tag", "State", "Cost"]).1 =
      [{ header := "Name", target := "static", key := "name" }] ∧
    (analyzeHeaders [] ["Name", "Serial Tag", "State", "Cost"]).2 =
      ["Serial Tag", "State", "Cost"] ∧
    fallbackTarget (normalizeHeader "Serial Tag") = none ∧
    fallbackTarget "service_tag" = some "serial_number" ∧
    fallbackTarget (normalizeHeader "State") = some "status" ∧
    fallbackTarget (normalizeHeader "Cost") = some "purchase_price" ∧
    fallbackTarget (normalizeHeader "Name") = none := by
  exact ⟨rfl, rfl, by decide, by decide, by decide, by decide, by decide⟩

/-- Helper: the chunked write loop aborts exactly when the total byte count
exceeds the limit, and otherwise returns the total. -/
theorem streamChunks_spec (maxB : Nat) :
    ∀ (chunks : List Nat) (size : Nat), size ≤ maxB →
      streamChunks maxB size chunks =
        if maxB < size + chunks.sum then Except.error "File size exceeds limit"
        else Except.ok (size + chunks.sum)
  | [], size, h => by
    simp [streamChunks, Nat.not_lt.mpr h]
  | c :: cs, size, h => by
    simp only [streamChunks, List.sum_cons]
    by_cases hc : size + c > maxB
    · rw [if_pos hc, if_pos (by omega)]
    · rw [if_neg hc]
      have ih := streamChunks_spec maxB cs (size + c) (by omega)
      rw [ih]
      by_cases hover : maxB < size + c + cs.sum
      · rw [if_pos hover, if_pos (by omega)]
      · rw [if_neg hover, if_neg (by omega)]
        exact congrArg Except.ok (by omega)

/-- C9: upload intake accepts a stream only when the lowercased filename
extension is on the allow-list and the total byte count stays within the
limit; a disallowed extension or an oversize stream leaves no file on disk
and persists no job, while a successful upload persists a job whose payload
records the destination path, the original filename, the uploader and the
byte count. -/
theorem c9_upload_intake :
    (∀ (maxB : Nat) (dest : String) (fn : Option String) (chunks : List Nat)
       (uid : String),
       pyLower (pathSuffix (fn.getD "")) ∉ allowedExts →
       (createImportJob maxB dest fn chunks uid).job = none ∧
       (createImportJob maxB dest fn chunks uid).fileKept = false) ∧
    (∀ (maxB : Nat) (dest : String) (fn : Option String) (chunks : List Nat)
       (uid : String),
       pyLower (pathSuffix (fn.getD "")) ∈ allowedExts →
       maxB < chunks.sum →
       (createImportJob maxB dest fn chunks uid).job = none ∧
       (createImportJob maxB dest fn chunks uid).fileKept = false) ∧
    (∀ (maxB : Nat) (dest : String) (fn : Option String) (chunks : List Nat)
       (uid : String),
       pyLower (pathSuffix (fn.getD "")) ∈ allowedExts →
       chunks.sum ≤ maxB →
       createImportJob maxB dest fn chunks uid =
         { job := some { status := JStatus.completed,
                         payload := { filePath := dest, filename := fn,
                                      uploadedBy := uid, sizeBytes := chunks.sum } },
           err := none, fileKept := true }) := by
  refine ⟨?_, ?_, ?_⟩
  · intro maxB dest fn chunks uid h
    simp [createImportJob, validateExt, h]
  · intro maxB dest fn chunks uid h hover
    have hs := streamChunks_spec maxB chunks 0 (Nat.zero_le maxB)
    rw [if_pos (by omega)] at hs
    simp [createImportJob, validateExt, h, hs]
  · intro maxB dest fn chunks uid h hle
    have hs := streamChunks_spec maxB chunks 0 (Nat.zero_le maxB)
    rw [if_neg (by omega)] at hs
    simp only [Nat.zero_add] at hs
    simp [createImportJob, validateExt, h, hs]

/-- Witness for C9 at concrete uploads: a disallowed extension, an oversize
stream of two three-byte chunks against a five-byte limit, and a successful
ten-byte upload. -/
theorem c9_upload_intake_witness :
    ((createImportJob 50 "/srv/uploads/x.exe" (some "evil.exe") [3] "u").job = none ∧
     (createImportJob 50 "/srv/uploads/x.exe" (some "evil.exe") [3] "u").fileKept = false) ∧
    ((createImportJob 5 "/srv/uploads/y.csv" (some "big.csv") [3, 3] "u").job = none ∧
     (createImportJob 5 "/srv/uploads/y.csv" (some "big.csv") [3, 3] "u").fileKept = false) ∧
    (createImportJob 50 "/srv/uploads/z.csv" (some "ok.CSV") [4, 6] "u" =
      { job := some { status := JStatus.completed,
                      payload := { filePath := "/srv/uploads/z.csv",
                                   filename := some "ok.CSV",
                                   uploadedBy := "u", sizeBytes := [4, 6].sum } },
        err := none, fileKept := true }) :=
  ⟨c9_upload_intake.1 50 "/srv/uploads/x.exe" (some "evil.exe") [3] "u" (by decide),
   c9_upload_intake.2.1 5 "/srv/uploads/y.csv" (some "big.csv") [3, 3] "u"
     (by decide) (by decide),
   c9_upload_intake.2.2 50 "/srv/uploads/z.csv" (some "ok.CSV") [4, 6] "u"
     (by decide) (by decide)⟩

/-- Helper: transitivity of the character-list comparison. -/
theorem lcLt_trans : ∀ (as bs cs : List Char),
    lcLt as bs = true → lcLt bs cs = true → lcLt as cs = true
  | [], [], _, h1, _ => by cases h1
  | [], _ :: _, [], _, h2 => by cases h2
  | [], _ :: _, _ :: _, _, _ => rfl
  | _ :: _, [], _, h1, _ => by cases h1
  | _ :: _, _ :: _, [], _, h2 => by cases h2
  | a :: as, b :: bs, c :: cs, h1, h2 => by
    by_cases hab : a = b
    · subst hab
      by_cases hbc : a = c
      · subst hbc
        simp only [lcLt, if_pos rfl] at h1 h2 ⊢
        exact lcLt_trans as bs cs h1 h2
      · simp only [lcLt, if_pos rfl] at h1
        simp only [lcLt, if_neg hbc] at h2 ⊢
        exact h2
    · have h1l : a < b := by simpa [lcLt, hab] using h1
      by_cases hbc : b = c
      · subst hbc
        simp [lcLt, hab, h1l]
      · have h2l : b < c := by simpa [lcLt, hbc] using h2
        have hac : a < c := lt_trans h1l h2l
        simp [lcLt, ne_of_lt hac, hac]

/-- Helper: totality of the character-list comparison. -/
theorem lcLt_trichot : ∀ (as bs : List Char),
    lcLt as bs = true ∨ lcLt bs as = true ∨ as = bs
  | [], [] => Or.inr (Or.inr rfl)
  | [], _ :: _ => Or.inl rfl
  | _ :: _, [] => Or.inr (Or.inl rfl)
  | a :: as, b :: bs => by
    by_cases hab : a = b
    · subst hab
      rcases lcLt_trichot as bs with h | h | h
      · left; simp [lcLt, h]
      · right; left; simp [lcLt, h]
      · right; right; rw [h]
    · rcases lt_or_gt_of_ne hab with h | h
      · left; simp [lcLt, hab, h]
      · right; left; simp [lcLt, Ne.symm hab, h]

/-- Helper: transitivity of the string comparison. -/
theorem strLt_trans (x y z : String) (h1 : strLt x y = true)
    (h2 : strLt y z = true) : strLt x z = true :=
  lcLt_trans x.data y.data z.data h1 h2

/-- Helper: totality of the string comparison. -/
theorem strLt_trichot (x y : String) :
    strLt x y = true ∨ strLt y x = true ∨ x = y := by
  rcases lcLt_trichot x.data y.data with h | h | h
  · exact Or.inl h
  · exact Or.inr (Or.inl h)
  · refine Or.inr (Or.inr ?_)
    cases x
    cases y
    exact congrArg String.mk h

/-- Helper: a false strict tuple comparison yields the reverse non-strict
order. -/
theorem betterPair_false (q p : ℚ × String) (h : betterPair q p = false) :
    pairLe p q := by
  have h1 : ¬ (q.1 < p.1 ∨ (q.1 = p.1 ∧ strLt q.2 p.2 = true)) := by
    simpa [betterPair] using h
  push_neg at h1
  rcases lt_or_eq_of_le h1.1 with hlt | heq
  · exact Or.inl hlt
  · refine Or.inr ⟨heq, ?_⟩
    rcases strLt_trichot p.2 q.2 with hs | hs | hs
    · exact Or.inl hs
    · exact absurd hs (h1.2 heq.symm)
    · exact Or.inr hs

/-- Helper: a true strict tuple comparison gives the non-strict order. -/
theorem betterPair_true (q p : ℚ × String) (h : betterPair q p = true) :
    pairLe q p := by
  have h1 : q.1 < p.1 ∨ (q.1 = p.1 ∧ strLt q.2 p.2 = true) := by
    simpa [betterPair] using h
  rcases h1 with h1 | ⟨he, hs⟩
  · exact Or.inl h1
  · exact Or.inr ⟨he, Or.inl hs⟩

/-- Helper: the tuple order is reflexive. -/
theorem pairLe_refl (p : ℚ × String) : pairLe p p := Or.inr ⟨rfl, Or.inr rfl⟩

/-- Helper: the tuple order is transitive. -/
theorem pairLe_trans {p q r : ℚ × String} (h1 : pairLe p q) (h2 : pairLe q r) :
    pairLe p r := by
  rcases h1 with h1 | ⟨e1, s1⟩
  · rcases h2 with h2 | ⟨e2, s2⟩
    · exact Or.inl (h1.trans h2)
    · exact Or.inl (e2 ▸ h1)
  · rcases h2 with h2 | ⟨e2, s2⟩
    · exact Or.inl (e1 ▸ h2)
    · right
      refine ⟨e1.trans e2, ?_⟩
      rcases s1 with s1 | s1
      · rcases s2 with s2 | s2
        · exact Or.inl (strLt_trans _ _ _ s1 s2)
        · exact Or.inl (s2 ▸ s1)
      · rcases s2 with s2 | s2
        · exact Or.inl (s1 ▸ s2)
        · exact Or.inr (s1.trans s2)

/-- Helper: selection started from a candidate never returns nothing. -/
theorem pickBest_some_ne_none :
    ∀ (l : List (ℚ × String)) (q : ℚ × String), pickBest (some q) l ≠ none
  | [], q => by simp [pickBest]
  | p :: l, q => by
    intro h
    have hstep : pickBest (some q) (p :: l) =
        pickBest (if betterPair q p then some p else some q) l := rfl
    rw [hstep] at h
    by_cases hb : betterPair q p = true
    · rw [if_pos hb] at h; exact pickBest_some_ne_none l p h
    · rw [if_neg hb] at h; exact pickBest_some_ne_none l q h

/-- Helper: selection started from a candidate returns the candidate or a
list member, dominating the candidate and every list member in the tuple
order. -/
theorem pickBest_spec :
    ∀ (l : List (ℚ × String)) (q m : ℚ × String),
      pickBest (some q) l = some m →
      (m = q ∨ m ∈ l) ∧ pairLe q m ∧ ∀ p ∈ l, pairLe p m
  | [], q, m => by
    intro h
    have h0 : q = m := by simpa [pickBest] using h
    exact ⟨Or.inl h0.symm, h0 ▸ pairLe_refl q, by simp⟩
  | p :: l, q, m => by
    intro h
    have hstep : pickBest (some q) (p :: l) =
        pickBest (if betterPair q p then some p else some q) l := rfl
    rw [hstep] at h
    by_cases hb : betterPair q p = true
    · rw [if_pos hb] at h
      obtain ⟨hm, hqm, hall⟩ := pickBest_spec l p m h
      refine ⟨?_, pairLe_trans (betterPair_true q p hb) hqm, ?_⟩
      · rcases hm with hm | hm
        · exact Or.inr (hm ▸ List.mem_cons_self p l)
        · exact Or.inr (List.mem_cons_of_mem p hm)
      · intro x hx
        rcases List.mem_cons.mp hx with hx | hx
        · exact hx ▸ hqm
        · exact hall x hx
    · rw [if_neg hb] at h
      obtain ⟨hm, hqm, hall⟩ := pickBest_spec l q m h
      have hpq : pairLe p q := betterPair_false q p (by simpa using hb)
      refine ⟨?_, hqm, ?_⟩
      · rcases hm with hm | hm
        · exact Or.inl hm
        · exact Or.inr (List.mem_cons_of_mem p hm)
      · intro x hx
        rcases List.mem_cons.mp hx with hx | hx
        · exact hx ▸ pairLe_trans hpq hqm
        · exact hall x hx

/-- Helper: a selected best pair is a member of the scored list and dominates
every member. -/
theorem pickBest_none_spec (l : List (ℚ × String)) (m : ℚ × String)
    (h : pickBest none l = some m) :
    m ∈ l ∧ ∀ p ∈ l, pairLe p m := by
  cases l with
  | nil => cases h
  | cons p l =>
    obtain ⟨hm, hpm, hall⟩ := pickBest_spec l p m h
    refine ⟨?_, ?_⟩
    · rcases hm with hm | hm
      · exact hm ▸ List.mem_cons_self p l
      · exact List.mem_cons_of_mem p hm
    · intro x hx
      rcases List.mem_cons.mp hx with hx | hx
      · exact hx ▸ hpm
      · exact hall x hx

/-- Helper: the selection is empty exactly on the empty scored list. -/
theorem pickBest_none_eq_none (l : List (ℚ × String)) :
    pickBest none l = none ↔ l = [] := by
  cases l with
  | nil => simp [pickBest]
  | cons p l =>
    constructor
    · intro h
      exact absurd h (pickBest_some_ne_none l p)
    · intro h; cases h

/-- C10 counterexample: two known emails tie above the cutoff against the
value c@x, which matches no email exactly; the code still maps the value, to
the identity of the tuple-greater tied email b@x, instead of yielding no
match on the tie. -/
theorem c10_fuzzy_tie_counterexample :
    userMatchFor (buildUserMap [("a@x", "id1"), ("b@x", "id2")]) "c@x" = some "id2" ∧
    dictGet (buildUserMap [("a@x", "id1"), ("b@x", "id2")])
      (pyLower (pyStrip "c@x")) = none ∧
    simScore "a@x" "c@x" = simScore "b@x" "c@x" ∧
    fuzzyCutoff ≤ simScore "a@x" "c@x" := by
  exact ⟨rfl, rfl, by decide, by decide⟩

/-- C10 as amended: an exact case-insensitive email match wins outright; when
every known email scores below the cutoff the value stays unmatched; and when
a fuzzy match is produced it is a known email scoring at least the cutoff
that dominates every other candidate above the cutoff by score and, on equal
scores, by the string order — so a tie yields the tuple-greater tied email
rather than no match. -/
theorem c10_person_matching :
    (∀ (um : List (String × String)) (v uid : String),
       dictGet um (pyLower (pyStrip v)) = some uid →
       userMatchFor um v = some uid) ∧
    (∀ (word : String) (poss : List String) (cutoff : ℚ),
       closeMatchesOne word poss cutoff = none ↔
         ∀ x ∈ poss, simScore x word < cutoff) ∧
    (∀ (word : String) (poss : List String) (cutoff : ℚ) (m : String),
       closeMatchesOne word poss cutoff = some m →
       m ∈ poss ∧ cutoff ≤ simScore m word ∧
         ∀ x ∈ poss, cutoff ≤ simScore x word →
           simScore x word < simScore m word ∨
             (simScore x word = simScore m word ∧ (strLt x m = true ∨ x = m))) ∧
    (∀ (um : List (String × String)) (v : String),
       dictGet um (pyLower (pyStrip v)) = none →
       (∀ x ∈ um.map (·.1), simScore x (pyLower (pyStrip v)) < fuzzyCutoff) →
       userMatchFor um v = none) := by
  have hred : ∀ (word : String) (poss : List String) (cutoff : ℚ),
      closeMatchesOne word poss cutoff =
        (pickBest none (poss.filterMap
          (fun x => if cutoff ≤ simScore x word then
            some (simScore x word, x) else none))).map (·.2) :=
    fun _ _ _ => rfl
  have hnone : ∀ (word : String) (poss : List String) (cutoff : ℚ),
      closeMatchesOne word poss cutoff = none ↔
        ∀ x ∈ poss, simScore x word < cutoff := by
    intro word poss cutoff
    rw [hred]
    rw [Option.map_eq_none', pickBest_none_eq_none, List.filterMap_eq_nil]
    constructor
    · intro h x hx
      have := h x hx
      by_cases hcut : cutoff ≤ simScore x word
      · rw [if_pos hcut] at this; cases this
      · exact lt_of_not_le hcut
    · intro h x hx
      rw [if_neg (not_le_of_lt (h x hx))]
  refine ⟨?_, hnone, ?_, ?_⟩
  · intro um v uid h
    simp [userMatchFor, h]
  · intro word poss cutoff m h
    rw [hred] at h
    obtain ⟨pr, hpb, hpr2⟩ := Option.map_eq_some'.mp h
    obtain ⟨hmem, hmax⟩ := pickBest_none_spec _ pr hpb
    obtain ⟨x, hx, hfx⟩ := List.mem_filterMap.mp hmem
    by_cases hcut : cutoff ≤ simScore x word
    · rw [if_pos hcut] at hfx
      have hpr := Option.some.inj hfx
      have hm : m = x := by rw [← hpr2, ← hpr]
      subst hm
      have hpr1 : pr.1 = simScore m word := by rw [← hpr]
      refine ⟨hx, by rw [← hpr1]; exact hpr ▸ hcut, ?_⟩
      · intro y hy hycut
        have hymem : (simScore y word, y) ∈ poss.filterMap
            (fun x => if cutoff ≤ simScore x word then
              some (simScore x word, x) else none) := by
          refine List.mem_filterMap.mpr ⟨y, hy, ?_⟩
          rw [if_pos hycut]
        have hle := hmax _ hymem
        rw [← hpr] at hle
        exact hle
    · rw [if_neg hcut] at hfx; cases hfx
  · intro um v h hall
    have hcm := (hnone (pyLower (pyStrip v)) (um.map (·.1)) fuzzyCutoff).mpr hall
    simp [userMatchFor, h, hcm]

/-- Witness for C10 instantiating every part: the exact match wins for a
case-different email, an all-below-cutoff value stays unmatched through both
the fuzzy helper and the full resolution, and the tied fuzzy match of the
counterexample input satisfies the maximality conclusion. -/
theorem c10_person_matching_witness :
    userMatchFor (buildUserMap [("A@x", "id1")]) " a@X " = some "id1" ∧
    closeMatchesOne "zzzz" ["a@x", "b@x"] fuzzyCutoff = none ∧
    ("b@x" ∈ ["a@x", "b@x"] ∧ fuzzyCutoff ≤ simScore "b@x" "c@x" ∧
      ∀ x ∈ ["a@x", "b@x"], fuzzyCutoff ≤ simScore x "c@x" →
        simScore x "c@x" < simScore "b@x" "c@x" ∨
          (simScore x "c@x" = simScore "b@x" "c@x" ∧
            (strLt x "b@x" = true ∨ x = "b@x"))) ∧
    userMatchFor (buildUserMap [("a@x", "id1")]) "zzzz" = none :=
  ⟨c10_person_matching.1 (buildUserMap [("A@x", "id1")]) " a@X " "id1" rfl,
   (c10_person_matching.2.1 "zzzz" ["a@x", "b@x"] fuzzyCutoff).mpr (by decide),
   c10_person_matching.2.2.1 "c@x" ["a@x", "b@x"] fuzzyCutoff "b@x" rfl,
   c10_person_matching.2.2.2 (buildUserMap [("a@x", "id1")]) "zzzz" rfl (by decide)⟩

end AssetsAI
